import Mathlib

/-!
Shallow embedding of the ts-either library (src/index.ts), a two-variant
sum type `Either<E, T>` with a suite of pure combinators, and proofs of
the specification's claims about it.

Modelling conventions:
- The TypeScript tagged union `Left<E> | Right<T>` (discriminant field
  `type`, payload field `value`) becomes a Lean inductive with two
  constructors; the discriminant is the constructor itself.
- JS arrays become `List`; `Object.keys` iteration order over a record
  literal is its insertion order, so a record of Either fields becomes an
  association list `List (String × Either E α)` in field-declaration
  order (the source handles field payloads uniformly as `any`, so one
  payload type `α` per record suffices for the claims).
- The JS exception channel is made explicit with `Except String`: every
  operation also gets an `Except`-valued semantics (suffix `E`) translated
  from the same source body, in which the only `throw` sites are the two
  explicit throws in `getRightOrFail` / `getLeftOrFail`.
- JS template-literal rendering of a payload (which calls its `toString`)
  becomes a `ToString` instance argument.
- Thunks and handlers that could have observable side effects in JS are
  additionally modelled in state-passing style (suffix `S`), so that
  "handler/thunk is invoked exactly once / never" is expressible as an
  equation on the threaded state.
-/

/-- The tagged union `Either<E, T> = Left<E> | Right<T>` from src/index.ts. -/
inductive Either (E T : Type) where
  | Left (value : E)
  | Right (value : T)
deriving DecidableEq, Repr

namespace TsEither

open Either

variable {E T R E2 S T1 T2 T3 α σ : Type}

/-- `Either.toString`: renders as `(right 5)` / `(left oops)`. -/
def eitherToString [ToString E] [ToString T] : Either E T → String
  | .Right v => "(right " ++ toString v ++ ")"
  | .Left v => "(left " ++ toString v ++ ")"

instance [ToString E] [ToString T] : ToString (Either E T) := ⟨eitherToString⟩

/-- `isRight`: the discriminant test `value.type === 'right'`. -/
def isRight : Either E T → Bool
  | .Right _ => true
  | .Left _ => false

/-- `isLeft`: the discriminant test `value.type === 'left'`. -/
def isLeft : Either E T → Bool
  | .Right _ => false
  | .Left _ => true

/-- The handler record `{ right: (value: T) => R; left: (value: E) => R }`
passed to `caseOf`. -/
structure CaseActions (E T R : Type) where
  right : T → R
  left : E → R

/-- `caseOf`: dispatch on the discriminant, applying the matching handler
to the payload (`isRight(input) ? actions.right(input.value) :
actions.left(input.value)`). -/
def caseOf (actions : CaseActions E T R) : Either E T → R
  | .Right v => actions.right v
  | .Left v => actions.left v

/-- `mapLeft`: transform the failure payload via `caseOf`. -/
def mapLeft (selector : E → E2) (input : Either E T) : Either E2 T :=
  caseOf ⟨Either.Right, fun leftValue => .Left (selector leftValue)⟩ input

/-- `toArray`: one-element array for Right, empty array for Left. -/
def toArray (input : Either E T) : List T :=
  caseOf ⟨fun x => [x], fun _ => []⟩ input

/-- `enum TakeSingleError { Empty, MoreThanOne }`. -/
inductive TakeSingleError where
  | Empty
  | MoreThanOne
deriving DecidableEq, Repr

/-- `singleFromArray`: Left Empty on length 0, Left MoreThanOne on
length > 1, otherwise Right of `input[0]` (in-bounds because length = 1). -/
def singleFromArray (input : List T) : Either TakeSingleError T :=
  if h : input.length = 0 then
    .Left .Empty
  else if input.length > 1 then
    .Left .MoreThanOne
  else
    .Right (input.get ⟨0, Nat.pos_of_ne_zero h⟩)

/-- `enum TakeFirstError { Empty }`. -/
inductive TakeFirstError where
  | Empty
deriving DecidableEq, Repr

/-- `firstFromArray`: Right of `input[0]` when non-empty, else Left Empty. -/
def firstFromArray (input : List T) : Either TakeFirstError T :=
  if h : input.length > 0 then
    .Right (input.get ⟨0, h⟩)
  else
    .Left TakeFirstError.Empty

/-- `defaultTo`: success payload or the supplied fallback, via `caseOf`. -/
def defaultTo (defaultValue : T) (input : Either E T) : T :=
  caseOf ⟨fun x => x, fun _ => defaultValue⟩ input

/-- `map` (Functor): apply the selector to a Right payload, pass Left
through, via `caseOf`. -/
def map (selector : T → R) (input : Either E T) : Either E R :=
  caseOf ⟨fun value => .Right (selector value), Either.Left⟩ input

/-- `flap`: apply a wrapped function to a plain value, via `map`. -/
def flap (func : Either E (T → R)) (value : T) : Either E R :=
  map (fun f => f value) func

/-- `bimap` (Bifunctor): map both sides, exactly one selector per call. -/
def bimap (leftSelector : E → E2) (rightSelector : T → R) (input : Either E T) : Either E2 R :=
  caseOf ⟨fun value => .Right (rightSelector value), fun value => .Left (leftSelector value)⟩ input

/-- `chain` (Monad bind): Right feeds the selector, Left passes through. -/
def chain (selector : T → Either E R) (input : Either E T) : Either E R :=
  caseOf ⟨selector, Either.Left⟩ input

/-- `alt` (Alternative, eager): `isRight(a) ? a : b`. -/
def alt (a : Either E T) (b : Either E T) : Either E T :=
  if isRight a then a else b

/-- `altLazy`: `isRight(a) ? a : b()` with a deferred second argument. -/
def altLazy (a : Either E T) (b : Unit → Either E T) : Either E T :=
  if isRight a then a else b ()

/-- `altLazy` with the thunk in state-passing style (the JS thunk may have
side effects on the world `σ`); the source body invokes `b` only in the
Left branch. -/
def altLazyS (a : Either E T) (b : σ → Either E T × σ) (s : σ) : Either E T × σ :=
  if isRight a then (a, s) else b s

/-- `extend`: apply the selector to the whole Either when Right. -/
def extend (selector : Either E T → R) (input : Either E T) : Either E R :=
  match input with
  | .Right _ => .Right (selector input)
  | .Left v => .Left v

/-- `apply` (Applicative): Left function short-circuits, else `map`. -/
def apply (func : Either E (T → R)) (value : Either E T) : Either E R :=
  match func with
  | .Right f => map f value
  | .Left v => .Left v

/-- `lift2`: left-to-right short-circuit, first Left wins. -/
def lift2 (func : T1 → T2 → R) (t1 : Either E T1) (t2 : Either E T2) : Either E R :=
  match t1 with
  | .Left e => .Left e
  | .Right v1 =>
    match t2 with
    | .Left e => .Left e
    | .Right v2 => .Right (func v1 v2)

/-- `lift3`: the same left-to-right short-circuit over three operands. -/
def lift3 (func : T1 → T2 → T3 → R) (t1 : Either E T1) (t2 : Either E T2) (t3 : Either E T3) : Either E R :=
  match t1 with
  | .Left e => .Left e
  | .Right v1 =>
    match t2 with
    | .Left e => .Left e
    | .Right v2 =>
      match t3 with
      | .Left e => .Left e
      | .Right v3 => .Right (func v1 v2 v3)

/-- `applyFirst`: first Left wins, else the first operand's Right. -/
def applyFirst (first : Either E T1) (second : Either E T2) : Either E T1 :=
  match first with
  | .Left _ => first
  | .Right _ =>
    match second with
    | .Left e => .Left e
    | .Right _ => first

/-- `applySecond`: first Left wins, else the second operand's Right. -/
def applySecond (first : Either E T1) (second : Either E T2) : Either E T2 :=
  match first with
  | .Left e => .Left e
  | .Right _ =>
    match second with
    | .Left _ => second
    | .Right _ => second

/-- The loop of `liftProps`: walk the fields in declaration order,
returning the first Left immediately, otherwise accumulating the
unwrapped `result` record. -/
def liftPropsGo : List (String × Either E α) → List (String × α) → Either E (List (String × α))
  | [], result => .Right result
  | (key, value) :: rest, result =>
    match value with
    | .Left e => .Left e
    | .Right x => liftPropsGo rest (result ++ [(key, x)])

/-- `liftProps`: fail-fast record lifter. -/
def liftProps (input : List (String × Either E α)) : Either E (List (String × α)) :=
  liftPropsGo input []

/-- The loop of `liftPropsCollect`: walk every field, pushing each Left
payload onto `errors`; rights are recorded only while `errors` is empty. -/
def liftPropsCollectGo : List (String × Either E α) → List (String × α) → List E → Either (List E) (List (String × α))
  | [], result, errors =>
    if errors.length = 0 then .Right result else .Left errors
  | (key, value) :: rest, result, errors =>
    match value with
    | .Left e => liftPropsCollectGo rest result (errors ++ [e])
    | .Right x =>
      if errors.length = 0 then
        liftPropsCollectGo rest (result ++ [(key, x)]) errors
      else
        liftPropsCollectGo rest result errors

/-- `liftPropsCollect`: fail-slow record lifter accumulating all Left
payloads in declaration order. -/
def liftPropsCollect (input : List (String × Either E α)) : Either (List E) (List (String × α)) :=
  liftPropsCollectGo input [] []

/-- `of = Right`: the applicative unit. -/
def of (value : T) : Either E T :=
  Either.Right value

/-! ### Exception-channel semantics

The same operation bodies, translated with the JS exception channel made
explicit as `Except String`. Handler records may now throw; the only
`.error` sites are the two explicit `throw new Error(...)` statements of
`getRightOrFail` / `getLeftOrFail`. -/

/-- A `caseOf` handler record whose handlers may throw. -/
structure CaseActionsE (E T R : Type) where
  right : T → Except String R
  left : E → Except String R

/-- `caseOf` under the exception-channel semantics. -/
def caseOfE (actions : CaseActionsE E T R) : Either E T → Except String R
  | .Right v => actions.right v
  | .Left v => actions.left v

/-- `getRightOrFail`: returns the Right payload, throws
`Tried to get right out of a left: ${e}` on Left (the template literal
renders the payload via its `toString`). -/
def getRightOrFail [ToString E] (input : Either E T) : Except String T :=
  caseOfE ⟨fun x => .ok x,
           fun e => .error ("Tried to get right out of a left: " ++ toString e)⟩ input

/-- `getLeftOrFail`: returns the Left payload, throws
`Tried to get left out of a right: ${t}` on Right. -/
def getLeftOrFail [ToString T] (input : Either E T) : Except String E :=
  caseOfE ⟨fun t => .error ("Tried to get left out of a right: " ++ toString t),
           fun e => .ok e⟩ input

/-- `mapLeft` under the exception-channel semantics. -/
def mapLeftE (selector : E → E2) (input : Either E T) : Except String (Either E2 T) :=
  caseOfE ⟨fun v => .ok (.Right v), fun leftValue => .ok (.Left (selector leftValue))⟩ input

/-- `toArray` under the exception-channel semantics. -/
def toArrayE (input : Either E T) : Except String (List T) :=
  caseOfE ⟨fun x => .ok [x], fun _ => .ok []⟩ input

/-- `singleFromArray` under the exception-channel semantics. -/
def singleFromArrayE (input : List T) : Except String (Either TakeSingleError T) :=
  if h : input.length = 0 then
    .ok (.Left .Empty)
  else if input.length > 1 then
    .ok (.Left .MoreThanOne)
  else
    .ok (.Right (input.get ⟨0, Nat.pos_of_ne_zero h⟩))

/-- `firstFromArray` under the exception-channel semantics. -/
def firstFromArrayE (input : List T) : Except String (Either TakeFirstError T) :=
  if h : input.length > 0 then
    .ok (.Right (input.get ⟨0, h⟩))
  else
    .ok (.Left TakeFirstError.Empty)

/-- `defaultTo` under the exception-channel semantics. -/
def defaultToE (defaultValue : T) (input : Either E T) : Except String T :=
  caseOfE ⟨fun x => .ok x, fun _ => .ok defaultValue⟩ input

/-- `map` under the exception-channel semantics. -/
def mapE (selector : T → R) (input : Either E T) : Except String (Either E R) :=
  caseOfE ⟨fun value => .ok (.Right (selector value)), fun v => .ok (.Left v)⟩ input

/-- `flap` under the exception-channel semantics. -/
def flapE (func : Either E (T → R)) (value : T) : Except String (Either E R) :=
  mapE (fun f => f value) func

/-- `bimap` under the exception-channel semantics. -/
def bimapE (leftSelector : E → E2) (rightSelector : T → R) (input : Either E T) : Except String (Either E2 R) :=
  caseOfE ⟨fun value => .ok (.Right (rightSelector value)),
           fun value => .ok (.Left (leftSelector value))⟩ input

/-- `chain` under the exception-channel semantics. -/
def chainE (selector : T → Either E R) (input : Either E T) : Except String (Either E R) :=
  caseOfE ⟨fun v => .ok (selector v), fun v => .ok (.Left v)⟩ input

/-- `alt` under the exception-channel semantics. -/
def altE (a : Either E T) (b : Either E T) : Except String (Either E T) :=
  if isRight a then .ok a else .ok b

/-- `altLazy` under the exception-channel semantics. -/
def altLazyE (a : Either E T) (b : Unit → Either E T) : Except String (Either E T) :=
  if isRight a then .ok a else .ok (b ())

/-- `extend` under the exception-channel semantics. -/
def extendE (selector : Either E T → R) (input : Either E T) : Except String (Either E R) :=
  match input with
  | .Right _ => .ok (.Right (selector input))
  | .Left v => .ok (.Left v)

/-- `apply` under the exception-channel semantics. -/
def applyE (func : Either E (T → R)) (value : Either E T) : Except String (Either E R) :=
  match func with
  | .Right f => mapE f value
  | .Left v => .ok (.Left v)

/-- `lift2` under the exception-channel semantics. -/
def lift2E (func : T1 → T2 → R) (t1 : Either E T1) (t2 : Either E T2) : Except String (Either E R) :=
  match t1 with
  | .Left e => .ok (.Left e)
  | .Right v1 =>
    match t2 with
    | .Left e => .ok (.Left e)
    | .Right v2 => .ok (.Right (func v1 v2))

/-- `lift3` under the exception-channel semantics. -/
def lift3E (func : T1 → T2 → T3 → R) (t1 : Either E T1) (t2 : Either E T2) (t3 : Either E T3) : Except String (Either E R) :=
  match t1 with
  | .Left e => .ok (.Left e)
  | .Right v1 =>
    match t2 with
    | .Left e => .ok (.Left e)
    | .Right v2 =>
      match t3 with
      | .Left e => .ok (.Left e)
      | .Right v3 => .ok (.Right (func v1 v2 v3))

/-- `applyFirst` under the exception-channel semantics. -/
def applyFirstE (first : Either E T1) (second : Either E T2) : Except String (Either E T1) :=
  match first with
  | .Left _ => .ok first
  | .Right _ =>
    match second with
    | .Left e => .ok (.Left e)
    | .Right _ => .ok first

/-- `applySecond` under the exception-channel semantics. -/
def applySecondE (first : Either E T1) (second : Either E T2) : Except String (Either E T2) :=
  match first with
  | .Left e => .ok (.Left e)
  | .Right _ =>
    match second with
    | .Left _ => .ok second
    | .Right _ => .ok second

/-- The `liftProps` loop under the exception-channel semantics. -/
def liftPropsEGo : List (String × Either E α) → List (String × α) → Except String (Either E (List (String × α)))
  | [], result => .ok (.Right result)
  | (key, value) :: rest, result =>
    match value with
    | .Left e => .ok (.Left e)
    | .Right x => liftPropsEGo rest (result ++ [(key, x)])

/-- `liftProps` under the exception-channel semantics. -/
def liftPropsE (input : List (String × Either E α)) : Except String (Either E (List (String × α))) :=
  liftPropsEGo input []

/-- The `liftPropsCollect` loop under the exception-channel semantics. -/
def liftPropsCollectEGo : List (String × Either E α) → List (String × α) → List E → Except String (Either (List E) (List (String × α)))
  | [], result, errors =>
    if errors.length = 0 then .ok (.Right result) else .ok (.Left errors)
  | (key, value) :: rest, result, errors =>
    match value with
    | .Left e => liftPropsCollectEGo rest result (errors ++ [e])
    | .Right x =>
      if errors.length = 0 then
        liftPropsCollectEGo rest (result ++ [(key, x)]) errors
      else
        liftPropsCollectEGo rest result errors

/-- `liftPropsCollect` under the exception-channel semantics. -/
def liftPropsCollectE (input : List (String × Either E α)) : Except String (Either (List E) (List (String × α))) :=
  liftPropsCollectEGo input [] []

/-- `of` under the exception-channel semantics. -/
def ofE (value : T) : Except String (Either E T) :=
  .ok (.Right value)

/-! ### State-instrumented dispatch

`caseOf` with handlers in state-passing style, so that handler invocations
(which in JS may have observable effects) leave a trace in the threaded
state. The body invokes exactly the handler selected by the discriminant,
exactly once, threading the state only through that handler. -/

/-- A `caseOf` handler record whose handlers act on a state `σ`. -/
structure CaseActionsS (E T R σ : Type) where
  right : T → σ → R × σ
  left : E → σ → R × σ

/-- `caseOf` with state-passing handlers. -/
def caseOfS (actions : CaseActionsS E T R σ) : Either E T → σ → R × σ
  | .Right v, s => actions.right v s
  | .Left v, s => actions.left v s

/-! ### Specification-side characterizations of the record lifters -/

/-- Specification-side helper: the payloads of the Left fields, in
field-declaration order. -/
def leftPayloads (fields : List (String × Either E α)) : List E :=
  fields.filterMap (fun p => match p.2 with | .Left e => some e | .Right _ => none)

/-- Specification-side helper: the record of unwrapped Right fields, in
field-declaration order. -/
def rightFields (fields : List (String × Either E α)) : List (String × α) :=
  fields.filterMap (fun p => match p.2 with | .Right x => some (p.1, x) | .Left _ => none)

/-! ### Helper lemmas -/

theorem leftPayloads_cons_left (k : String) (e : E) (rest : List (String × Either E α)) :
    leftPayloads ((k, .Left e) :: rest) = e :: leftPayloads rest := by
  simp [leftPayloads]

theorem leftPayloads_cons_right (k : String) (x : α) (rest : List (String × Either E α)) :
    leftPayloads ((k, (.Right x : Either E α)) :: rest) = leftPayloads rest := by
  simp [leftPayloads]

theorem rightFields_cons_right (k : String) (x : α) (rest : List (String × Either E α)) :
    rightFields ((k, (.Right x : Either E α)) :: rest) = (k, x) :: rightFields rest := by
  simp [rightFields]

theorem rightFields_cons_left (k : String) (e : E) (rest : List (String × Either E α)) :
    rightFields ((k, (.Left e : Either E α)) :: rest) = rightFields rest := by
  simp [rightFields]

/-- The `liftProps` loop returns the first Left payload in order, or Right
of the accumulator extended by all unwrapped fields. -/
theorem liftPropsGo_eq (fields : List (String × Either E α)) :
    ∀ result, liftPropsGo fields result =
      (match leftPayloads fields with
       | [] => .Right (result ++ rightFields fields)
       | e :: _ => .Left e) := by
  induction fields with
  | nil =>
    intro result
    simp [liftPropsGo, leftPayloads, rightFields]
  | cons p rest ih =>
    intro result
    obtain ⟨k, v⟩ := p
    cases v with
    | Left e =>
      simp only [liftPropsGo, leftPayloads_cons_left]
    | Right x =>
      simp only [liftPropsGo, ih (result ++ [(k, x)]), leftPayloads_cons_right,
        rightFields_cons_right]
      cases leftPayloads rest <;> simp

/-- The `liftPropsCollect` loop returns Left of `errors` extended by all
remaining Left payloads in order when that list is non-empty, and
otherwise Right of the accumulator extended by all unwrapped fields. -/
theorem liftPropsCollectGo_eq (fields : List (String × Either E α)) :
    ∀ result errors, liftPropsCollectGo fields result errors =
      (match errors ++ leftPayloads fields with
       | [] => .Right (result ++ rightFields fields)
       | e :: es => .Left (e :: es)) := by
  induction fields with
  | nil =>
    intro result errors
    simp only [liftPropsCollectGo, leftPayloads, rightFields, List.filterMap_nil,
      List.append_nil]
    cases errors <;> simp
  | cons p rest ih =>
    intro result errors
    obtain ⟨k, v⟩ := p
    cases v with
    | Left e =>
      simp only [liftPropsCollectGo, ih result (errors ++ [e]), leftPayloads_cons_left,
        rightFields_cons_left, List.append_assoc, List.singleton_append]
    | Right x =>
      simp only [liftPropsCollectGo, leftPayloads_cons_right, rightFields_cons_right]
      rcases errors with _ | ⟨e0, es0⟩
      · simp only [List.length_nil, if_pos rfl, ih (result ++ [(k, x)]) [],
          List.nil_append, List.append_assoc, List.singleton_append]
        cases leftPayloads rest <;> simp
      · simp only [List.length_cons, ih result (e0 :: es0)]
        simp

/-- The exception-channel `liftProps` loop never throws. -/
theorem liftPropsEGo_ok (fields : List (String × Either E α)) :
    ∀ result, liftPropsEGo fields result = .ok (liftPropsGo fields result) := by
  induction fields with
  | nil => intro result; rfl
  | cons p rest ih =>
    intro result
    obtain ⟨k, v⟩ := p
    cases v with
    | Left e => rfl
    | Right x => simp only [liftPropsEGo, liftPropsGo, ih]

/-- The exception-channel `liftPropsCollect` loop never throws. -/
theorem liftPropsCollectEGo_ok (fields : List (String × Either E α)) :
    ∀ result errors, liftPropsCollectEGo fields result errors
      = .ok (liftPropsCollectGo fields result errors) := by
  induction fields with
  | nil =>
    intro result errors
    simp only [liftPropsCollectEGo, liftPropsCollectGo]
    split <;> rfl
  | cons p rest ih =>
    intro result errors
    obtain ⟨k, v⟩ := p
    cases v with
    | Left e => simp only [liftPropsCollectEGo, liftPropsCollectGo, ih]
    | Right x =>
      simp only [liftPropsCollectEGo, liftPropsCollectGo]
      split <;> simp only [ih]

/-! ### Claims -/

/-- C1: every library operation except `getRightOrFail` and `getLeftOrFail`
returns normally (never throws): under the exception-channel semantics,
each operation returns `.ok` of its pure value for every well-formed
Either input, every array, and every record of Eithers. -/
theorem spec_non_orfail_ops_never_throw :
    (∀ (E T R : Type) (r : T → R) (l : E → R) (e : Either E T),
       caseOfE ⟨fun v => .ok (r v), fun v => .ok (l v)⟩ e = .ok (caseOf ⟨r, l⟩ e)) ∧
    (∀ (E E2 T : Type) (f : E → E2) (e : Either E T), mapLeftE f e = .ok (mapLeft f e)) ∧
    (∀ (E T : Type) (e : Either E T), toArrayE e = .ok (toArray e)) ∧
    (∀ (T : Type) (l : List T), singleFromArrayE l = .ok (singleFromArray l)) ∧
    (∀ (T : Type) (l : List T), firstFromArrayE l = .ok (firstFromArray l)) ∧
    (∀ (E T : Type) (d : T) (e : Either E T), defaultToE d e = .ok (defaultTo d e)) ∧
    (∀ (E T R : Type) (f : T → R) (e : Either E T), mapE f e = .ok (map f e)) ∧
    (∀ (E T R : Type) (fe : Either E (T → R)) (x : T), flapE fe x = .ok (flap fe x)) ∧
    (∀ (E E2 T R : Type) (fl : E → E2) (fr : T → R) (e : Either E T),
       bimapE fl fr e = .ok (bimap fl fr e)) ∧
    (∀ (E T R : Type) (k : T → Either E R) (e : Either E T), chainE k e = .ok (chain k e)) ∧
    (∀ (E T : Type) (a b : Either E T), altE a b = .ok (alt a b)) ∧
    (∀ (E T : Type) (a : Either E T) (th : Unit → Either E T),
       altLazyE a th = .ok (altLazy a th)) ∧
    (∀ (E T R : Type) (f : Either E T → R) (e : Either E T), extendE f e = .ok (extend f e)) ∧
    (∀ (E T R : Type) (fe : Either E (T → R)) (ve : Either E T),
       applyE fe ve = .ok (apply fe ve)) ∧
    (∀ (E T1 T2 R : Type) (f : T1 → T2 → R) (a : Either E T1) (b : Either E T2),
       lift2E f a b = .ok (lift2 f a b)) ∧
    (∀ (E T1 T2 T3 R : Type) (f : T1 → T2 → T3 → R) (a : Either E T1) (b : Either E T2)
       (c : Either E T3), lift3E f a b c = .ok (lift3 f a b c)) ∧
    (∀ (E T1 T2 : Type) (a : Either E T1) (b : Either E T2),
       applyFirstE a b = .ok (applyFirst a b)) ∧
    (∀ (E T1 T2 : Type) (a : Either E T1) (b : Either E T2),
       applySecondE a b = .ok (applySecond a b)) ∧
    (∀ (E α : Type) (fields : List (String × Either E α)),
       liftPropsE fields = .ok (liftProps fields)) ∧
    (∀ (E α : Type) (fields : List (String × Either E α)),
       liftPropsCollectE fields = .ok (liftPropsCollect fields)) ∧
    (∀ (E T : Type) (x : T), ofE x = (.ok (of x) : Except String (Either E T))) := by
  refine ⟨?_, ?_, ?_, ?_, ?_, ?_, ?_, ?_, ?_, ?_, ?_, ?_, ?_, ?_, ?_, ?_, ?_, ?_, ?_, ?_, ?_⟩
  · intro E T R r l e; cases e <;> rfl
  · intro E E2 T f e; cases e <;> rfl
  · intro E T e; cases e <;> rfl
  · intro T l; rcases l with _ | ⟨a, _ | ⟨b, l⟩⟩ <;> simp [singleFromArrayE, singleFromArray]
  · intro T l; rcases l with _ | ⟨a, l⟩ <;> simp [firstFromArrayE, firstFromArray]
  · intro E T d e; cases e <;> rfl
  · intro E T R f e; cases e <;> rfl
  · intro E T R fe x; cases fe <;> rfl
  · intro E E2 T R fl fr e; cases e <;> rfl
  · intro E T R k e; cases e <;> rfl
  · intro E T a b; cases a <;> rfl
  · intro E T a th; cases a <;> rfl
  · intro E T R f e; cases e <;> rfl
  · intro E T R fe ve; cases fe <;> cases ve <;> rfl
  · intro E T1 T2 R f a b; cases a <;> cases b <;> rfl
  · intro E T1 T2 T3 R f a b c; cases a <;> cases b <;> cases c <;> rfl
  · intro E T1 T2 a b; cases a <;> cases b <;> rfl
  · intro E T1 T2 a b; cases a <;> cases b <;> rfl
  · intro E α fields; exact liftPropsEGo_ok fields []
  · intro E α fields; exact liftPropsCollectEGo_ok fields [] []
  · intro E T x; rfl

/-- C2: for every well-formed Either value, exactly one of `isRight` and
`isLeft` holds, and `caseOf` invokes exactly the handler matching the
variant, exactly once, with the payload, returning that handler's result;
the other handler is never invoked. Handler invocations are observed by
trace-recording handlers under the state-passing semantics. -/
theorem spec_caseOf_exclusive_dispatch :
    (∀ (E T : Type) (e : Either E T),
       (isRight e = true ∧ isLeft e = false) ∨ (isRight e = false ∧ isLeft e = true)) ∧
    (∀ (E T R : Type) (f : T → R) (g : E → R) (x : T),
       caseOf ⟨f, g⟩ (.Right x : Either E T) = f x) ∧
    (∀ (E T R : Type) (f : T → R) (g : E → R) (v : E),
       caseOf ⟨f, g⟩ (.Left v : Either E T) = g v) ∧
    (∀ (E T R : Type) (f : T → R) (g : E → R) (x : T) (rs : List T) (ls : List E),
       caseOfS ⟨fun v s => (f v, (s.1 ++ [v], s.2)), fun v s => (g v, (s.1, s.2 ++ [v]))⟩
         (.Right x : Either E T) (rs, ls) = (f x, (rs ++ [x], ls))) ∧
    (∀ (E T R : Type) (f : T → R) (g : E → R) (v : E) (rs : List T) (ls : List E),
       caseOfS ⟨fun v s => (f v, (s.1 ++ [v], s.2)), fun v s => (g v, (s.1, s.2 ++ [v]))⟩
         (.Left v : Either E T) (rs, ls) = (g v, (rs, ls ++ [v]))) := by
  refine ⟨?_, ?_, ?_, ?_, ?_⟩
  · intro E T e; cases e with
    | Left v => exact Or.inr ⟨rfl, rfl⟩
    | Right v => exact Or.inl ⟨rfl, rfl⟩
  · intro E T R f g x; rfl
  · intro E T R f g v; rfl
  · intro E T R f g x rs ls; rfl
  · intro E T R f g v rs ls; rfl

/-- C3: `liftProps` returns the first Left payload in field-declaration
order (Right of the fully unwrapped record when every field is Right);
`liftPropsCollect` accumulates all Left payloads in field-declaration
order and returns Left of that sequence when non-empty, Right of the
fully unwrapped record when empty. In particular, for
`{a: Left "x", b: Left "y", c: Right 1}`, `liftProps` gives `Left "x"`
and `liftPropsCollect` gives `Left ["x", "y"]`. -/
theorem spec_record_lifters_fail_fast_vs_slow :
    (∀ (E α : Type) (fields : List (String × Either E α)),
       liftProps fields =
         (match leftPayloads fields with
          | [] => .Right (rightFields fields)
          | e :: _ => .Left e)) ∧
    (∀ (E α : Type) (fields : List (String × Either E α)),
       liftPropsCollect fields =
         (match leftPayloads fields with
          | [] => .Right (rightFields fields)
          | e :: es => .Left (e :: es))) ∧
    liftProps [("a", .Left "x"), ("b", .Left "y"), ("c", (.Right 1 : Either String Nat))]
      = .Left "x" ∧
    liftPropsCollect [("a", .Left "x"), ("b", .Left "y"), ("c", (.Right 1 : Either String Nat))]
      = .Left ["x", "y"] := by
  refine ⟨?_, ?_, rfl, rfl⟩
  · intro E α fields
    simpa using liftPropsGo_eq fields []
  · intro E α fields
    simpa using liftPropsCollectGo_eq fields [] []

/-- C4: short-circuit order: `lift2 f (Left a) y = Left a`;
`lift2 f (Right x) (Left b) = Left b`; and `altLazy (Right x) thunk`
returns `Right x` without invoking the thunk (the threaded state of a
state-passing thunk is returned untouched, and the result does not depend
on the thunk). -/
theorem spec_short_circuit_order :
    (∀ (E T1 T2 R : Type) (f : T1 → T2 → R) (a : E) (y : Either E T2),
       lift2 f (.Left a) y = .Left a) ∧
    (∀ (E T1 T2 R : Type) (f : T1 → T2 → R) (x : T1) (b : E),
       lift2 f (.Right x) (.Left b : Either E T2) = .Left b) ∧
    (∀ (E T σ : Type) (x : T) (th : σ → Either E T × σ) (s : σ),
       altLazyS (.Right x) th s = (.Right x, s)) ∧
    (∀ (E T : Type) (x : T) (th th2 : Unit → Either E T),
       altLazy (.Right x) th = .Right x ∧ altLazy (.Right x) th = altLazy (.Right x) th2) := by
  exact ⟨fun E T1 T2 R f a y => rfl, fun E T1 T2 R f x b => rfl,
    fun E T σ x th s => rfl, fun E T x th th2 => ⟨rfl, rfl⟩⟩

/-- C5: functor laws: `map identity e = e` for every Either; composition
`map g (map f e) = map (fun x => g (f x)) e` for all Right-valued `e`; and
`map f (Left x) = Left x` for any `f` and payload. -/
theorem spec_functor_laws :
    (∀ (E T : Type) (e : Either E T), map (fun x => x) e = e) ∧
    (∀ (E T R S : Type) (f : T → R) (g : R → S) (e : Either E T),
       isRight e = true → map g (map f e) = map (fun x => g (f x)) e) ∧
    (∀ (E T R : Type) (f : T → R) (x : E), map f (.Left x : Either E T) = .Left x) := by
  refine ⟨?_, ?_, ?_⟩
  · intro E T e; cases e <;> rfl
  · intro E T R S f g e h
    cases e with
    | Left v => simp [isRight] at h
    | Right v => rfl
  · intro E T R f x; rfl

/-- Witness for C5 at `e = Right 3`, `f = n + 1`, `g = n * 2`. -/
theorem spec_functor_laws_witness :
    isRight (.Right 3 : Either String Nat) = true ∧
    map (fun n => n * 2) (map (fun n => n + 1) (.Right 3 : Either String Nat))
      = map (fun n => (n + 1) * 2) (.Right 3 : Either String Nat) :=
  ⟨rfl, spec_functor_laws.2.1 String Nat Nat Nat (fun n => n + 1) (fun n => n * 2)
    (.Right 3) rfl⟩

/-- C6: monad identity laws: `chain f (of x) = f x` and `chain of e = e`. -/
theorem spec_monad_identity :
    (∀ (E T R : Type) (f : T → Either E R) (x : T), chain f (of x) = f x) ∧
    (∀ (E T : Type) (e : Either E T), chain of e = e) := by
  refine ⟨fun E T R f x => rfl, ?_⟩
  intro E T e; cases e <;> rfl

/-- C7: `singleFromArray` returns Right of the only element on length 1,
Left Empty on length 0, Left MoreThanOne on length > 1; `firstFromArray`
returns Right of the first element on a non-empty array and Left Empty
otherwise. -/
theorem spec_array_lifters :
    (∀ (T : Type) (l : List T), l.length = 0 → singleFromArray l = .Left .Empty) ∧
    (∀ (T : Type) (l : List T), l.length = 1 → ∃ x, l = [x] ∧ singleFromArray l = .Right x) ∧
    (∀ (T : Type) (l : List T), l.length > 1 → singleFromArray l = .Left .MoreThanOne) ∧
    (∀ (T : Type) (x : T) (rest : List T), firstFromArray (x :: rest) = .Right x) ∧
    (∀ (T : Type) (l : List T), l.length = 0 → firstFromArray l = .Left .Empty) := by
  refine ⟨?_, ?_, ?_, ?_, ?_⟩
  · intro T l h
    rcases l with _ | ⟨a, l⟩
    · rfl
    · simp at h
  · intro T l h
    rcases l with _ | ⟨a, _ | ⟨b, l⟩⟩
    · simp at h
    · exact ⟨a, rfl, rfl⟩
    · simp at h
  · intro T l h
    rcases l with _ | ⟨a, _ | ⟨b, l⟩⟩
    · simp at h
    · simp at h
    · simp [singleFromArray]
  · intro T x rest; simp [firstFromArray]
  · intro T l h
    rcases l with _ | ⟨a, l⟩
    · rfl
    · simp at h

/-- Witness for C7 at the arrays `[]`, `[7]`, `[1, 2]`. -/
theorem spec_array_lifters_witness :
    (List.length ([] : List Nat) = 0 ∧ singleFromArray ([] : List Nat) = .Left .Empty) ∧
    ([7].length = 1 ∧ ∃ x, [7] = [x] ∧ singleFromArray [7] = .Right x) ∧
    ([1, 2].length > 1 ∧ singleFromArray [1, 2] = .Left .MoreThanOne) ∧
    (List.length ([] : List Nat) = 0 ∧ firstFromArray ([] : List Nat) = .Left .Empty) :=
  ⟨⟨rfl, spec_array_lifters.1 Nat [] rfl⟩,
   ⟨rfl, spec_array_lifters.2.1 Nat [7] rfl⟩,
   ⟨by decide, spec_array_lifters.2.2.1 Nat [1, 2] (by decide)⟩,
   ⟨rfl, spec_array_lifters.2.2.2.2 Nat [] rfl⟩⟩

/-- C8: `getRightOrFail (Right x) = x`, and `getRightOrFail (Left e)`
fails with an error whose message embeds the rendering of the failure
payload `e` (the message is a prefix string followed by `toString e`). -/
theorem spec_getRightOrFail_contract :
    (∀ (E T : Type) [ToString E] (x : T),
       getRightOrFail (.Right x : Either E T) = .ok x) ∧
    (∀ (E T : Type) [ToString E] (e : E),
       getRightOrFail (.Left e : Either E T)
           = .error ("Tried to get right out of a left: " ++ toString e) ∧
       ∃ p, ("Tried to get right out of a left: " ++ toString e) = p ++ toString e) := by
  refine ⟨fun E T _ x => rfl, fun E T _ e => ⟨rfl, "Tried to get right out of a left: ", rfl⟩⟩

/-- C9: on the empty record, `liftProps` and `liftPropsCollect` both
return Right of the empty record; neither fails and neither produces a
Left. -/
theorem spec_empty_record_lifters :
    (∀ (E α : Type), liftProps ([] : List (String × Either E α)) = .Right []) ∧
    (∀ (E α : Type), liftPropsCollect ([] : List (String × Either E α)) = .Right []) :=
  ⟨fun _ _ => rfl, fun _ _ => rfl⟩

/-- C10: `lift2 f a b = apply (map f a) b` for all Either values `a`, `b`:
the direct implementation of `lift2` coincides with the canonical
applicative composition of `map` and `apply`. -/
theorem spec_lift2_eq_apply_map :
    ∀ (E T1 T2 R : Type) (f : T1 → T2 → R) (a : Either E T1) (b : Either E T2),
      lift2 f a b = apply (map f a) b := by
  intro E T1 T2 R f a b
  cases a <;> cases b <;> rfl

end TsEither
